import Mathlib

/-!
A shallow embedding of the core of OSMAlchemy (an OpenStreetMap to
SQLAlchemy bridge): the OSM element data model (`model.py`), the XML feed
feed importer (`util.py`: `_import_osm_dom` and its helpers `_dom_to_node`,
`_dom_to_way`, `_dom_to_relation`), the query predicate analyzer
(`util.py` / `triggers.py`, `_analyse_clause`), and the query pre-compile
trigger (`triggers.py`, `_query_compiling`).

The persistent store is modelled as a list of elements in insertion
order; a committed SQLAlchemy session state corresponds to one such list.
Feed documents are modelled as lists of pre-parsed records (the XML/DOM
layer is external `minidom`); a mandatory attribute missing from the DOM
is an `Option` that is `none`, and accessing it raises `keyError` exactly
where the Python code would raise `KeyError`.
-/

namespace OSMAlchemy

/-- The polymorphic discriminator `type` of `OSMElement` ("node", "way",
"relation" in `model.py`'s polymorphic identities). -/
inductive Kind where
  | node
  | way
  | relation
deriving DecidableEq, Repr

/-- A value held by the `latitude`/`longitude` columns of `OSMNode`:
either the constructor default `0.0` (from `OSMNode.__init__(latitude=0.0,
longitude=0.0)`) or the raw attribute string taken from the feed
(`e.attributes["lat"].value` is assigned unparsed). -/
inductive CoordVal where
  | zeroDefault
  | feed (s : String)
deriving DecidableEq, Repr

/-- Kind-specific data of an element: a node's coordinates (nullable
columns as stored attribute values), a way's ordered node list (by OSM id,
the `nodes` association proxy ordered by `position`), or a relation's
ordered member list of `(type, ref, role)` (the `members` proxy). -/
inductive Payload where
  | node (latitude longitude : Option CoordVal)
  | way (nds : List Int)
  | rel (members : List (Kind × Int × String))
deriving DecidableEq, Repr

/-- Discriminator of a payload, the `type` column. -/
def Payload.kind : Payload → Kind
  | .node _ _ => .node
  | .way _ => .way
  | .rel _ => .relation

/-- The metadata columns shared by all element types in `OSMElement`
(`version`, `changeset`, `user`, `uid`, `visible`, `timestamp`), all
nullable. -/
structure Meta where
  version : Option Int
  changeset : Option Int
  user : Option String
  uid : Option Int
  visible : Option Bool
  timestamp : Option String
deriving DecidableEq, Repr

/-- Metadata of a freshly constructed element: all columns NULL. -/
def Meta.empty : Meta := ⟨none, none, none, none, none, none⟩

/-- A persisted `OSMElement` row (with its kind-specific subtable row):
OSM `id`, kind-specific payload, shared metadata, and the tag mapping. -/
structure Element where
  id : Int
  payload : Payload
  meta : Meta
  tags : List (String × String)
deriving DecidableEq, Repr

/-- The kind (polymorphic `type`) of an element. -/
def Element.kind (e : Element) : Kind := e.payload.kind

/-- The committed database state: all element rows in insertion order.
The unique constraint on `(type, id)` means a key occurs at most once. -/
abbrev Store := List Element

/-- Does element `e` have key `(k, i)`?  (The `(type, id)` unique key.) -/
def keyMatch (e : Element) (k : Kind) (i : Int) : Bool :=
  e.kind = k ∧ e.id = i

/-- `session.query(...).filter_by(id=i)` on the subtable of kind `k` (or
`filter_by(id=i, type=k)` on the base table), `.scalar()`: the first (and
by the unique constraint, only) element with key `(k, i)`, if any. -/
def lookupStore (s : Store) (k : Kind) (i : Int) : Option Element :=
  s.find? (fun e => keyMatch e k i)

/-- In-place update of the (unique) row with key `(k, i)`: the committed
state after mutating the queried object and committing. -/
def updateStore (s : Store) (k : Kind) (i : Int) (f : Element → Element) : Store :=
  match s with
  | [] => []
  | e :: es =>
      if keyMatch e k i then f e :: es else e :: updateStore es k i f

/-- New-value-if-present update, as `_dom_attrs_to_any` does per field:
`if "version" in e.attributes.keys(): element.version = ...`. -/
def updAttr {α : Type} (new old : Option α) : Option α :=
  match new with
  | some v => some v
  | none => old

/-- The metadata attributes present on a feed record's XML element, each
`none` when the attribute is absent (already parsed: `int(...)`,
`visible == "true"`, `dateutil.parser.parse(...)`). -/
structure MetaAttrs where
  version : Option Int
  changeset : Option Int
  user : Option String
  uid : Option Int
  visible : Option Bool
  timestamp : Option String
deriving DecidableEq, Repr

/-- `_dom_attrs_to_any`: copy each metadata attribute onto the element
when present in the DOM element, leaving the stored value otherwise. -/
def domAttrsToAny (a : MetaAttrs) (m : Meta) : Meta :=
  { version := updAttr a.version m.version
    changeset := updAttr a.changeset m.changeset
    user := updAttr a.user m.user
    uid := updAttr a.uid m.uid
    visible := updAttr a.visible m.visible
    timestamp := updAttr a.timestamp m.timestamp }

/-- A `<node>` record of a feed document.  `id`, `lat`, `lon` are
mandatory in OSM but may be absent from a malformed document (`none`). -/
structure NodeRec where
  id : Option Int
  lat : Option String
  lon : Option String
  attrs : MetaAttrs
  tags : List (String × String)
deriving DecidableEq, Repr

/-- A `<way>` record: its ordered `<nd ref=...>` references. -/
structure WayRec where
  id : Option Int
  nds : List Int
  attrs : MetaAttrs
  tags : List (String × String)
deriving DecidableEq, Repr

/-- A `<member>` child of a `<relation>` record: `type`, `ref` (mandatory,
`none` when absent), and optional `role`. -/
structure MemberRec where
  type : Kind
  ref : Option Int
  role : Option String
deriving DecidableEq, Repr

/-- A `<relation>` record: its ordered `<member>` children. -/
structure RelRec where
  id : Option Int
  members : List MemberRec
  attrs : MetaAttrs
  tags : List (String × String)
deriving DecidableEq, Repr

/-- One record of a feed document (other child node kinds are skipped by
the importer's dispatch loop). -/
inductive OSMRec where
  | node (r : NodeRec)
  | way (r : WayRec)
  | rel (r : RelRec)
deriving DecidableEq, Repr

/-- A parsed feed document: its records in document order. -/
abbrev Doc := List OSMRec

/-- The exceptions import can raise: `KeyError` (missing mandatory DOM
attribute), `NoResultFound` (a way's `<nd>` reference resolved with
`.one()` finds no node), `IntegrityError` (committing a new object whose
`(type, id)` key was meanwhile taken, e.g. a self-referencing relation
stub). -/
inductive ImportErr where
  | keyError
  | noResultFound
  | integrityError
deriving DecidableEq, Repr

/-- A fresh stub element, as created for an unknown relation member:
`osma.node(id=ref)` / `osma.way(id=ref)` / `osma.relation(id=ref)`.  Note
`OSMNode.__init__` defaults `latitude` and `longitude` to `0.0`. -/
def mkStub (k : Kind) (ref : Int) : Element :=
  { id := ref
    payload :=
      match k with
      | .node => .node (some .zeroDefault) (some .zeroDefault)
      | .way => .way []
      | .relation => .rel []
    meta := Meta.empty
    tags := [] }

/-- `_dom_to_node`: find or create the node by id, overwrite latitude and
longitude with the raw feed strings, apply metadata attributes and tags,
commit.  Returns the committed store and the raised exception, if any
(on an exception nothing of this record is committed). -/
def domToNode (s : Store) (r : NodeRec) : Store × Option ImportErr :=
  match r.id with
  | none => (s, some .keyError)
  | some i =>
      match r.lat, r.lon with
      | some la, some lo =>
          match lookupStore s .node i with
          | some _ =>
              (updateStore s .node i (fun e =>
                { e with
                  payload := .node (some (.feed la)) (some (.feed lo))
                  meta := domAttrsToAny r.attrs e.meta
                  tags := r.tags }), none)
          | none =>
              (s ++ [{ id := i
                       payload := .node (some (.feed la)) (some (.feed lo))
                       meta := domAttrsToAny r.attrs Meta.empty
                       tags := r.tags }], none)
      | _, _ => (s, some .keyError)

/-- Do all `<nd>` references of a way resolve to a node in the store?
(`session.query(osma.node).filter_by(id=ref).one()` raises
`NoResultFound` on the first one that does not.) -/
def ndsResolve (s : Store) (nds : List Int) : Bool :=
  nds.all (fun ref => (lookupStore s .node ref).isSome)

/-- `_dom_to_way`: find or create the way by id, append each resolved
`<nd>` node to `way.nodes` (appending to the existing list when the way
already exists), apply metadata and tags, commit.  An unresolved
reference raises before anything is committed. -/
def domToWay (s : Store) (r : WayRec) : Store × Option ImportErr :=
  match r.id with
  | none => (s, some .keyError)
  | some i =>
      if ndsResolve s r.nds then
        match lookupStore s .way i with
        | some _ =>
            (updateStore s .way i (fun e =>
              { e with
                payload :=
                  match e.payload with
                  | .way old => .way (old ++ r.nds)
                  | p => p
                meta := domAttrsToAny r.attrs e.meta
                tags := r.tags }), none)
        | none =>
            (s ++ [{ id := i
                     payload := .way r.nds
                     meta := domAttrsToAny r.attrs Meta.empty
                     tags := r.tags }], none)
      else (s, some .noResultFound)

/-- The member loop of `_dom_to_relation`: resolve each `(type, ref)` in
order; an unknown member becomes a stub committed immediately (so a
repeated reference finds it); a missing `ref` attribute raises `KeyError`
with the stubs committed so far remaining.  Returns the store (with new
stubs) and the collected `(type, ref, role)` member list, or the store
and the exception. -/
def processMembers (s : Store) : List MemberRec →
    (Store × List (Kind × Int × String) × Option ImportErr)
  | [] => (s, [], none)
  | m :: ms =>
      match m.ref with
      | none => (s, [], some .keyError)
      | some ref =>
          let role := m.role.getD ""
          let s' :=
            match lookupStore s m.type ref with
            | some _ => s
            | none => s ++ [mkStub m.type ref]
          match processMembers s' ms with
          | (s'', mems, err) => (s'', (m.type, ref, role) :: mems, err)

/-- `_dom_to_relation`: find or create the relation by id, resolve
members (creating committed stubs for unknown ones), append the member
tuples to `relation.members` (appending to the existing list when the
relation already exists), apply metadata and tags, commit. -/
def domToRelation (s : Store) (r : RelRec) : Store × Option ImportErr :=
  match r.id with
  | none => (s, some .keyError)
  | some i =>
      let orig := lookupStore s Kind.relation i
      match processMembers s r.members with
      | (s', _, some e) => (s', some e)
      | (s', mems, none) =>
          match orig with
          | some _ =>
              (updateStore s' Kind.relation i (fun e =>
                { e with
                  payload :=
                    match e.payload with
                    | .rel old => .rel (old ++ mems)
                    | p => p
                  meta := domAttrsToAny r.attrs e.meta
                  tags := r.tags }), none)
          | none =>
              if (lookupStore s' Kind.relation i).isSome then
                (s', some .integrityError)
              else
                (s' ++ [{ id := i
                          payload := .rel mems
                          meta := domAttrsToAny r.attrs Meta.empty
                          tags := r.tags }], none)

/-- Dispatch of `_import_osm_dom`'s loop body on one record. -/
def importRec (s : Store) : OSMRec → Store × Option ImportErr
  | .node r => domToNode s r
  | .way r => domToWay s r
  | .rel r => domToRelation s r

/-- `_import_osm_dom`: process the document's records in order; an
exception propagates, leaving everything committed so far in place and
the remaining records unprocessed. -/
def importOsmDom (s : Store) : Doc → Store × Option ImportErr
  | [] => (s, none)
  | r :: rs =>
      match importRec s r with
      | (s', none) => importOsmDom s' rs
      | (s', some e) => (s', some e)

/-- Number of stored elements of kind `k`. -/
def countKind (s : Store) (k : Kind) : Nat :=
  s.countP (fun e => e.kind = k)

/-! ### The query predicate analyzer (`_analyse_clause`) -/

/-- The SQLAlchemy operator attached to a clause.  The recognized ones
are the keys of the `_ops` table; `opOther` stands for any other
`operator.*` function. -/
inductive PyOp where
  | opEq
  | opNe
  | opLt
  | opGt
  | opLe
  | opGe
  | opAnd
  | opOr
  | opOther (name : String)
deriving DecidableEq, Repr

/-- The `_ops` dictionary: string representation of a recognized
operator, `none` when `op` is not among its keys. -/
def opsTable : PyOp → Option String
  | .opEq => some "=="
  | .opNe => some "!="
  | .opLt => some "<"
  | .opGt => some ">"
  | .opLe => some "<="
  | .opGe => some ">="
  | .opAnd => some "&&"
  | .opOr => some "||"
  | .opOther _ => none

/-- A literal value carried by a `BindParameter`.  Decimal literals such
as `50.0` are represented in tenths (`num 500`). -/
inductive Lit where
  | num (tenths : Int)
  | str (s : String)
deriving DecidableEq, Repr

/-- The left side of a `BinaryExpression`: an `AnnotatedColumn` (with its
`parentmapper` class name and column name) or any other (computed)
expression. -/
inductive LExpr where
  | annotatedColumn (model : String) (name : String)
  | otherExpr (desc : String)
deriving DecidableEq, Repr

/-- The right side of a `BinaryExpression`: a literal `BindParameter`, or
anything else (a subquery, a column reference, ...). -/
inductive RExpr where
  | bindParameter (v : Lit)
  | otherRight (desc : String)
deriving DecidableEq, Repr

/-- A SQLAlchemy filter clause as `_analyse_clause` discriminates it by
`type(clause)`: a `BinaryExpression`, a `BooleanClauseList`, or any
other clause type. -/
inductive Clause where
  | binary (left : LExpr) (op : PyOp) (right : RExpr)
  | boolList (op : PyOp) (clauses : List Clause)
  | otherClause (desc : String)

/-- The canonical polish-notation result tree: a comparison tuple
`(op, field, value)` or a combinator tuple `(op, clauses)`. -/
inductive PN where
  | cmp (op : String) (field : String) (value : Lit)
  | comb (op : String) (clauses : List PN)

mutual

/-- `_analyse_clause(clause, target)` from `util.py` (identical in
`triggers.py`): `None` (here `none`) marks an unsupported clause; for a
`BooleanClauseList` the unsupported children are silently dropped by
the iteration over `clause.clauses` (`analyseClauses`). -/
def analyseClause : Clause → String → Option PN
  | .binary left op right, target =>
      match left with
      | .annotatedColumn model name =>
          if model = target then
            match right with
            | .bindParameter v =>
                match opsTable op with
                | some o => some (.cmp o name v)
                | none => none
            | .otherRight _ => none
          else none
      | .otherExpr _ => none
  | .boolList op clauses, target =>
      let kept := analyseClauses clauses target
      match opsTable op with
      | some o => some (.comb o kept)
      | none => none
  | .otherClause _, _ => none

/-- The `for clause in clause.clauses` loop of `_analyse_clause`:
recursively analyse each child, appending only the non-`None` results. -/
def analyseClauses : List Clause → String → List PN
  | [], _ => []
  | c :: cs, target =>
      match analyseClause c target with
      | some r => r :: analyseClauses cs target
      | none => analyseClauses cs target

end

/-! ### The query pre-compile trigger (`_query_compiling`) -/

/-- The aspects of a SQLAlchemy `Query` object the trigger inspects:
its identity (`qid`, standing for the Python object identity used by the
`WeakSet` membership test), the class names of its column descriptions,
and its `whereclause`. -/
structure Query where
  qid : Nat
  models : List String
  whereclause : Option Clause

/-- The model class names of the OSMAlchemy instance
(`osmalchemy.node/way/relation/element`). -/
def ourModels : List String := ["OSMNode", "OSMWay", "OSMRelation", "OSMElement"]

/-- One firing of the `before_compile` listener `_query_compiling` on
query `q` with visited set `visited` (the `_visited_queries` `WeakSet`,
as the set of identities it currently holds).  Returns the new visited
set and whether the filter analysis ran. -/
def queryCompiling (visited : List Nat) (q : Query) : List Nat × Bool :=
  if q.qid ∈ visited then (visited, false)
  else
    let visited' := q.qid :: visited
    if q.models.all (fun m => m ∉ ourModels) then (visited', false)
    else
      match q.whereclause with
      | none => (visited', false)
      | some _ => (visited', true)

/-- A sequence of `before_compile` events: returns the log of
`(query identity, analysis ran)` pairs. -/
def runTrace (visited : List Nat) : List Query → List (Nat × Bool)
  | [] => []
  | q :: qs =>
      match queryCompiling visited q with
      | (visited', a) => (q.qid, a) :: runTrace visited' qs

/-- How many events of the trace log ran the analysis for query
identity `k`. -/
def countAnalyses (k : Nat) (log : List (Nat × Bool)) : Nat :=
  log.countP (fun e => e.1 = k ∧ e.2 = true)

/-! ### The freshness monitor -/

/-- Modelled from the spec: the per-read freshness check of §4.3 is not
present in the source tree (`_generate_triggers` receives `maxage` and
`online.py` provides the point fetch `_get_single_element_by_id`, but no
load-event handler uses them).  Per the spec: on each element
materialized by a read, compute `age = now − last_synced_at`; if
`age > max_age`, synchronously fetch that one element and set
`last_synced_at` to the fetch time (`now`).  Returns the element's new
`last_synced_at` and the number of remote fetches performed (0 or 1). -/
def freshnessOnLoad (now maxAge lastSyncedAt : Int) : Int × Nat :=
  if now - lastSyncedAt > maxAge then (now, 1) else (lastSyncedAt, 0)

/-- Metadata attributes all absent from the DOM element, for concrete
feed examples. -/
def noAttrs : MetaAttrs := ⟨none, none, none, none, none, none⟩

/-- A concrete feed document: node 1 followed by way 10 whose single
`<nd>` references node 1. -/
def c1doc : Doc :=
  [OSMRec.node ⟨some 1, some "1.0", some "2.0", noAttrs, []⟩,
   OSMRec.way ⟨some 10, [1], noAttrs, []⟩]

/-- The store committed by one import of `c1doc` into an empty store. -/
def c1store : Store :=
  [⟨1, .node (some (.feed "1.0")) (some (.feed "2.0")), Meta.empty, []⟩,
   ⟨10, .way [1], Meta.empty, []⟩]

/-- A concrete malformed feed document: a good node 1 followed by node 2
with the mandatory `lat` attribute missing. -/
def c2doc : Doc :=
  [OSMRec.node ⟨some 1, some "1.0", some "2.0", noAttrs, []⟩,
   OSMRec.node ⟨some 2, none, some "3.0", noAttrs, []⟩]

/-- A concrete feed document: relation 5 whose only member references
node 7, which is declared nowhere. -/
def c3doc : Doc :=
  [OSMRec.rel ⟨some 5, [⟨Kind.node, some 7, some "r"⟩], noAttrs, []⟩]

/-- The store committed by one import of `c3doc` into an empty store:
the node 7 stub and relation 5. -/
def c3store : Store :=
  [⟨7, .node (some .zeroDefault) (some .zeroDefault), Meta.empty, []⟩,
   ⟨5, .rel [(Kind.node, 7, "r")], Meta.empty, []⟩]

/-! ### Helper lemmas about the store -/

/-- Updating a row keeps the number of rows. -/
lemma length_updateStore (s : Store) (k : Kind) (i : Int) (f : Element → Element) :
    (updateStore s k i f).length = s.length := by
  induction s with
  | nil => rfl
  | cons e es ih =>
      unfold updateStore
      by_cases h : keyMatch e k i = true <;> simp [h, ih]

/-- If the update function keeps the key, looking up the key after an
in-place update returns the updated row. -/
lemma lookupStore_updateStore (s : Store) (k : Kind) (i : Int) (f : Element → Element)
    (hf : ∀ e, keyMatch e k i = true → keyMatch (f e) k i = true) :
    lookupStore (updateStore s k i f) k i = (lookupStore s k i).map f := by
  induction s with
  | nil => rfl
  | cons e es ih =>
      unfold updateStore lookupStore
      by_cases h : keyMatch e k i = true
      · simp [List.find?_cons, h, hf e h, lookupStore]
      · simp only [if_neg h]
        simp [List.find?_cons, h, lookupStore] at ih ⊢
        exact ih

/-- Looking up a key in an extended store: the old store is searched
first. -/
lemma lookupStore_append (s t : Store) (k : Kind) (i : Int) :
    lookupStore (s ++ t) k i = (lookupStore s k i).or (lookupStore t k i) := by
  simp [lookupStore, List.find?_append]

/-- A freshly appended row with the key is found when the key is new. -/
lemma lookupStore_append_new (s : Store) (e : Element) (k : Kind) (i : Int)
    (h : lookupStore s k i = none) (he : keyMatch e k i = true) :
    lookupStore (s ++ [e]) k i = some e := by
  rw [lookupStore_append, h]
  simp [lookupStore, List.find?_cons, he]

/-- Processing one record successfully, then the rest. -/
lemma importOsmDom_cons_ok (s s' : Store) (r : OSMRec) (rs : Doc)
    (h : importRec s r = (s', none)) :
    importOsmDom s (r :: rs) = importOsmDom s' rs := by
  rw [importOsmDom, h]

/-- Processing one record that raises stops the import there. -/
lemma importOsmDom_cons_err (s s' : Store) (r : OSMRec) (rs : Doc) (e : ImportErr)
    (h : importRec s r = (s', some e)) :
    importOsmDom s (r :: rs) = (s', some e) := by
  rw [importOsmDom, h]

/-- Processing a document distributes over append when the first part
succeeds. -/
lemma importOsmDom_append (s s₁ : Store) (d₁ d₂ : Doc)
    (h : importOsmDom s d₁ = (s₁, none)) :
    importOsmDom s (d₁ ++ d₂) = importOsmDom s₁ d₂ := by
  induction d₁ generalizing s with
  | nil =>
      unfold importOsmDom at h
      simp only [List.nil_append]
      obtain ⟨rfl, -⟩ := Prod.mk.injEq .. ▸ h
      rfl
  | cons r rs ih =>
      rw [List.cons_append]
      match hr : importRec s r with
      | (s', none) =>
          rw [importOsmDom_cons_ok s s' r (rs ++ d₂) hr]
          rw [importOsmDom_cons_ok s s' r rs hr] at h
          exact ih s' h
      | (s', some e) =>
          rw [importOsmDom_cons_err s s' r rs e hr] at h
          exact absurd (congrArg Prod.snd h) (by simp)

/-- A node record that raises leaves the committed store unchanged. -/
lemma domToNode_error (s : Store) (r : NodeRec) (e : ImportErr)
    (h : (domToNode s r).2 = some e) : (domToNode s r).1 = s := by
  unfold domToNode at h ⊢
  match hi : r.id with
  | none => simp
  | some i =>
      simp only [hi] at h ⊢
      match hla : r.lat, hlo : r.lon with
      | some la, some lo =>
          simp only [hla, hlo] at h ⊢
          match hl : lookupStore s .node i with
          | some _ => simp [hl] at h
          | none => simp [hl] at h
      | some _, none => simp
      | none, some _ => simp
      | none, none => simp

/-- A way record that raises leaves the committed store unchanged. -/
lemma domToWay_error (s : Store) (r : WayRec) (e : ImportErr)
    (h : (domToWay s r).2 = some e) : (domToWay s r).1 = s := by
  unfold domToWay at h ⊢
  match hi : r.id with
  | none => simp
  | some i =>
      simp only [hi] at h ⊢
      by_cases hres : ndsResolve s r.nds = true
      · simp only [hres, if_true] at h ⊢
        match hl : lookupStore s .way i with
        | some _ => simp [hl] at h
        | none => simp [hl] at h
      · simp only [Bool.not_eq_true] at hres
        simp [hres]

/-- A way with an unresolvable node reference does not resolve. -/
lemma ndsResolve_false_of_missing (s : Store) (nds : List Int) (ref : Int)
    (hmem : ref ∈ nds) (hmiss : lookupStore s Kind.node ref = none) :
    ndsResolve s nds = false := by
  unfold ndsResolve
  rw [List.all_eq_false]
  exact ⟨ref, hmem, by simp [hmiss]⟩

/-- When every member reference is already present, the member loop
creates no stub and collects the member tuples in order. -/
lemma processMembers_all_found (s : Store) (ms : List MemberRec)
    (h : ∀ m ∈ ms, ∃ ref, m.ref = some ref ∧ (lookupStore s m.type ref).isSome = true) :
    processMembers s ms =
      (s, ms.map (fun m => (m.type, m.ref.getD 0, m.role.getD "")), none) := by
  induction ms with
  | nil => rfl
  | cons m ms ih =>
      obtain ⟨ref, href, hfound⟩ := h m (List.mem_cons_self m ms)
      unfold processMembers
      rw [href]
      simp only
      have hsm : (match lookupStore s m.type ref with
          | some _ => s
          | none => s ++ [mkStub m.type ref]) = s := by
        match hl : lookupStore s m.type ref with
        | some _ => rfl
        | none => rw [hl] at hfound; simp at hfound
      rw [hsm, ih (fun m' hm' => h m' (List.mem_cons_of_mem m hm'))]
      simp [href]

/-- The member loop of `analyseClauses` keeps exactly the understood
children, in order. -/
lemma analyseClauses_eq_filterMap (cs : List Clause) (t : String) :
    analyseClauses cs t = cs.filterMap (fun c => analyseClause c t) := by
  induction cs with
  | nil => rfl
  | cons c cs ih =>
      rw [analyseClauses, List.filterMap_cons]
      match h : analyseClause c t with
      | some r => simp [h, ih]
      | none => simp [h, ih]

/-- The visited set never shrinks: a seen identity stays seen. -/
lemma mem_queryCompiling_visited (visited : List Nat) (q : Query) (k : Nat)
    (h : k ∈ visited) : k ∈ (queryCompiling visited q).1 := by
  unfold queryCompiling
  by_cases hq : q.qid ∈ visited
  · simpa [hq]
  · simp only [if_neg hq]
    match q.whereclause with
    | none => split <;> simp [List.mem_cons, h]
    | some _ => split <;> simp [List.mem_cons, h]

/-- When the handler runs the analysis, the query was unseen and its
identity is recorded. -/
lemma queryCompiling_analysed (visited : List Nat) (q : Query)
    (h : (queryCompiling visited q).2 = true) :
    q.qid ∉ visited ∧ q.qid ∈ (queryCompiling visited q).1 := by
  unfold queryCompiling at h ⊢
  by_cases hq : q.qid ∈ visited
  · simp [hq] at h
  · refine ⟨hq, ?_⟩
    simp only [if_neg hq]
    match q.whereclause with
    | none => split <;> simp [List.mem_cons]
    | some _ => split <;> simp [List.mem_cons]

/-- A query identity already in the visited set is never analysed again
in any later trace. -/
lemma countAnalyses_eq_zero_of_mem (visited : List Nat) (trace : List Query) (k : Nat)
    (h : k ∈ visited) : countAnalyses k (runTrace visited trace) = 0 := by
  induction trace generalizing visited with
  | nil => rfl
  | cons q qs ih =>
      rw [runTrace]
      match hq : queryCompiling visited q with
      | (visited', a) =>
          simp only
          have hv' : k ∈ visited' := by
            have := mem_queryCompiling_visited visited q k h
            rw [hq] at this
            exact this
          unfold countAnalyses
          rw [List.countP_cons]
          have hrest := ih visited' hv'
          unfold countAnalyses at hrest
          rw [hrest]
          by_cases hkk : q.qid = k
          · subst hkk
            have ha : a = false := by
              by_contra hna
              have := queryCompiling_analysed visited q
                (by rw [hq]; simpa using Bool.not_eq_false a ▸ hna)
              exact this.1 h
            simp [ha]
          · simp [hkk]

/-- The handler always records the query's identity (also on the skip
branches: the membership check and insertion happen first). -/
lemma queryCompiling_self_mem (visited : List Nat) (q : Query) :
    q.qid ∈ (queryCompiling visited q).1 := by
  unfold queryCompiling
  by_cases hq : q.qid ∈ visited
  · simp [hq]
  · simp only [if_neg hq]
    match q.whereclause with
    | none => split <;> simp [List.mem_cons]
    | some _ => split <;> simp [List.mem_cons]

/-! ### Claim theorems -/

/-- C4: for an element with `last_synced_at = now − 2*max_age`, a read
triggers exactly one remote fetch, on success sets `last_synced_at` to a
value `≥ now`, and an immediate second read of the same element triggers
no further fetch. -/
theorem c4_stale_read_refreshes_once (now maxAge : Int) (h : 0 < maxAge) :
    freshnessOnLoad now maxAge (now - 2 * maxAge) = (now, 1) ∧
    now ≤ (freshnessOnLoad now maxAge (now - 2 * maxAge)).1 ∧
    (freshnessOnLoad now maxAge (freshnessOnLoad now maxAge (now - 2 * maxAge)).1).2 = 0 := by
  have h1 : now - (now - 2 * maxAge) > maxAge := by omega
  have e1 : freshnessOnLoad now maxAge (now - 2 * maxAge) = (now, 1) := by
    unfold freshnessOnLoad
    rw [if_pos h1]
  refine ⟨e1, ?_, ?_⟩
  · rw [e1]
  · rw [e1]
    unfold freshnessOnLoad
    rw [if_neg (by omega)]

/-- Witness for C4 at `now = 0`, `max_age = 60`. -/
theorem c4_stale_read_refreshes_once_witness :
    (0 : Int) < 60 ∧
    (freshnessOnLoad 0 60 (0 - 2 * 60) = (0, 1) ∧
     (0 : Int) ≤ (freshnessOnLoad 0 60 (0 - 2 * 60)).1 ∧
     (freshnessOnLoad 0 60 (freshnessOnLoad 0 60 (0 - 2 * 60)).1).2 = 0) :=
  ⟨by decide, c4_stale_read_refreshes_once 0 60 (by decide)⟩

/-- C7: `latitude >= 50.0 AND longitude <= 7.2` against the node model
analyzes to the canonical `("&&", [(">=", latitude, 50.0),
("<=", longitude, 7.2)])`; a comparison whose right side is not a
literal bind parameter (e.g. a subquery) analyzes to `none`, so a
predicate containing one yields an empty or partial result and the
(total) analyzer never raises. -/
theorem c7_analyse_example_and_subquery :
    analyseClause
      (.boolList .opAnd
        [.binary (.annotatedColumn "OSMNode" "latitude") .opGe (.bindParameter (.num 500)),
         .binary (.annotatedColumn "OSMNode" "longitude") .opLe (.bindParameter (.num 72))])
      "OSMNode"
      = some (.comb "&&"
          [.cmp ">=" "latitude" (.num 500), .cmp "<=" "longitude" (.num 72)]) ∧
    (∀ (l : LExpr) (o : PyOp) (d t : String),
        analyseClause (.binary l o (.otherRight d)) t = none) ∧
    (∀ d : String,
        analyseClause
          (.boolList .opAnd
            [.binary (.annotatedColumn "OSMNode" "latitude") .opGe (.bindParameter (.num 500)),
             .binary (.annotatedColumn "OSMNode" "id") .opEq (.otherRight d)])
          "OSMNode"
          = some (.comb "&&" [.cmp ">=" "latitude" (.num 500)])) := by
  refine ⟨rfl, ?_, ?_⟩
  · intro l o d t
    cases l <;> simp [analyseClause]
  · intro d
    simp [analyseClause, analyseClauses, opsTable]

/-- C8: a combinator with a recognized operator yields a combinator over
exactly the children the analyzer understood (unsupported children are
dropped, the walk is not aborted); each unsupported comparison shape —
unrecognized operator, computed left side, non-literal right side, or a
column of a different model — analyzes to `none` on its own. -/
theorem c8_combinator_keeps_understood_children
    (o : PyOp) (sop : String) (cs : List Clause) (t : String)
    (h : opsTable o = some sop) :
    analyseClause (.boolList o cs) t
      = some (.comb sop (cs.filterMap (fun c => analyseClause c t))) ∧
    (∀ (f nm : String) (v : Lit),
        analyseClause (.binary (.annotatedColumn t f) (.opOther nm) (.bindParameter v)) t
          = none) ∧
    (∀ (d : String) (o' : PyOp) (r : RExpr),
        analyseClause (.binary (.otherExpr d) o' r) t = none) ∧
    (∀ (f d : String) (o' : PyOp),
        analyseClause (.binary (.annotatedColumn t f) o' (.otherRight d)) t = none) ∧
    (∀ (m f : String) (o' : PyOp) (r : RExpr), m ≠ t →
        analyseClause (.binary (.annotatedColumn m f) o' r) t = none) := by
  refine ⟨?_, ?_, ?_, ?_, ?_⟩
  · rw [analyseClause, analyseClauses_eq_filterMap, h]
  · intro f nm v
    simp [analyseClause, opsTable]
  · intro d o' r
    simp [analyseClause]
  · intro f d o'
    simp [analyseClause]
  · intro m f o' r hm
    cases r <;> simp [analyseClause, hm]

/-- Witness for C8: an AND over one understood and one unsupported
child keeps exactly the understood one. -/
theorem c8_combinator_keeps_understood_children_witness :
    opsTable .opAnd = some "&&" ∧
    (analyseClause
        (.boolList .opAnd
          [.binary (.annotatedColumn "OSMNode" "latitude") .opGe (.bindParameter (.num 500)),
           .otherClause "unsupported"])
        "OSMNode"
      = some (.comb "&&"
          ([.binary (.annotatedColumn "OSMNode" "latitude") .opGe (.bindParameter (.num 500)),
            Clause.otherClause "unsupported"].filterMap
            (fun c => analyseClause c "OSMNode"))) ∧
     (∀ (f nm : String) (v : Lit),
        analyseClause
          (.binary (.annotatedColumn "OSMNode" f) (.opOther nm) (.bindParameter v)) "OSMNode"
          = none) ∧
     (∀ (d : String) (o' : PyOp) (r : RExpr),
        analyseClause (.binary (.otherExpr d) o' r) "OSMNode" = none) ∧
     (∀ (f d : String) (o' : PyOp),
        analyseClause (.binary (.annotatedColumn "OSMNode" f) o' (.otherRight d)) "OSMNode"
          = none) ∧
     (∀ (m f : String) (o' : PyOp) (r : RExpr), m ≠ "OSMNode" →
        analyseClause (.binary (.annotatedColumn m f) o' r) "OSMNode" = none)) :=
  ⟨rfl, c8_combinator_keeps_understood_children .opAnd "&&"
    [.binary (.annotatedColumn "OSMNode" "latitude") .opGe (.bindParameter (.num 500)),
     .otherClause "unsupported"] "OSMNode" rfl⟩

/-- C9: over any sequence of `before_compile` events, the filter
analysis runs at most once for any given query identity, and a second
event on a query already seen once returns without re-analyzing. -/
theorem c9_analysis_at_most_once_per_query
    (visited : List Nat) (trace : List Query) (k : Nat) :
    countAnalyses k (runTrace visited trace) ≤ 1 ∧
    ∀ q : Query, (queryCompiling (queryCompiling visited q).1 q).2 = false := by
  constructor
  · induction trace generalizing visited with
    | nil => exact Nat.zero_le 1
    | cons q qs ih =>
        rw [runTrace]
        match hq : queryCompiling visited q with
        | (v', a) =>
            simp only
            unfold countAnalyses
            rw [List.countP_cons]
            by_cases hcase : q.qid = k ∧ a = true
            · obtain ⟨rfl, rfl⟩ := hcase
              have hmem : q.qid ∈ v' := by
                have := (queryCompiling_analysed visited q (by rw [hq])).2
                rw [hq] at this
                exact this
              have h0 := countAnalyses_eq_zero_of_mem v' qs q.qid hmem
              unfold countAnalyses at h0
              rw [h0]
              simp
            · have hrest := ih v'
              unfold countAnalyses at hrest
              have hp : decide ((q.qid, a).1 = k ∧ (q.qid, a).2 = true) = false := by
                simpa using hcase
              rw [hp]
              simpa using hrest
  · intro q
    generalize hg : queryCompiling visited q = w
    have hmem : q.qid ∈ w.1 := hg ▸ queryCompiling_self_mem visited q
    unfold queryCompiling
    rw [if_pos hmem]

/-- C5: a way record one of whose ordered `<nd>` references names a node
that is neither in the store nor earlier in the same batch makes
the import fail (the feed is treated as malformed: `NoResultFound` raised by
`.one()` aborts the batch), and no node stub is created for the missing
reference. -/
theorem c5_way_unresolved_ref_fails_without_stub
    (s s₁ : Store) (pre rest : Doc) (w : WayRec) (i ref : Int)
    (hpre : importOsmDom s pre = (s₁, none))
    (hid : w.id = some i)
    (href : ref ∈ w.nds)
    (hmiss : lookupStore s₁ Kind.node ref = none) :
    importOsmDom s (pre ++ OSMRec.way w :: rest) = (s₁, some ImportErr.noResultFound) ∧
    lookupStore (importOsmDom s (pre ++ OSMRec.way w :: rest)).1 Kind.node ref = none := by
  have hres := ndsResolve_false_of_missing s₁ w.nds ref href hmiss
  have hway : domToWay s₁ w = (s₁, some ImportErr.noResultFound) := by
    unfold domToWay
    rw [hid]
    simp [hres]
  have hall : importOsmDom s (pre ++ OSMRec.way w :: rest)
      = (s₁, some ImportErr.noResultFound) := by
    rw [importOsmDom_append s s₁ pre (OSMRec.way w :: rest) hpre]
    exact importOsmDom_cons_err s₁ s₁ (OSMRec.way w) rest ImportErr.noResultFound hway
  exact ⟨hall, by rw [hall]; exact hmiss⟩

/-- Witness for C5: a single-way document referencing node 1 in an empty
store fails and persists nothing. -/
theorem c5_way_unresolved_ref_fails_without_stub_witness :
    importOsmDom [] [] = (([] : Store), none) ∧
    (⟨some 10, [1], noAttrs, []⟩ : WayRec).id = some 10 ∧
    (1 : Int) ∈ (⟨some 10, [1], noAttrs, []⟩ : WayRec).nds ∧
    lookupStore [] Kind.node 1 = none ∧
    (importOsmDom [] ([] ++ OSMRec.way ⟨some 10, [1], noAttrs, []⟩ :: [])
        = ([], some ImportErr.noResultFound) ∧
     lookupStore (importOsmDom [] ([] ++ OSMRec.way ⟨some 10, [1], noAttrs, []⟩ :: [])).1
        Kind.node 1 = none) :=
  ⟨rfl, rfl, by decide, rfl,
   c5_way_unresolved_ref_fails_without_stub [] [] [] [] ⟨some 10, [1], noAttrs, []⟩ 10 1
     rfl rfl (by decide) rfl⟩

/-- C6: importing a fresh way record whose references all resolve
persists it with member list exactly the ordered `<nd>` reference list of
the source record — position `i` holds the node with the `i`-th `nd`
external id, repeated references kept at their own positions. -/
theorem c6_way_members_equal_nd_refs
    (pre : Doc) (w : WayRec) (i : Int) (s₁ : Store)
    (hpre : importOsmDom [] pre = (s₁, none))
    (hid : w.id = some i)
    (hnone : lookupStore s₁ Kind.way i = none)
    (hres : ndsResolve s₁ w.nds = true) :
    ∃ s₂, importOsmDom [] (pre ++ [OSMRec.way w]) = (s₂, none) ∧
      (lookupStore s₂ Kind.way i).map Element.payload = some (Payload.way w.nds) := by
  have hway : domToWay s₁ w =
      (s₁ ++ [⟨i, .way w.nds, domAttrsToAny w.attrs Meta.empty, w.tags⟩], none) := by
    unfold domToWay
    rw [hid]
    simp [hres, hnone]
  refine ⟨s₁ ++ [⟨i, .way w.nds, domAttrsToAny w.attrs Meta.empty, w.tags⟩], ?_, ?_⟩
  · rw [importOsmDom_append [] s₁ pre [OSMRec.way w] hpre]
    rw [importOsmDom_cons_ok s₁ _ (OSMRec.way w) [] hway]
    rfl
  · rw [lookupStore_append_new s₁ _ Kind.way i hnone
      (by simp [keyMatch, Element.kind, Payload.kind])]
    rfl

/-- Witness for C6: a document declaring node 1 and then a way whose
`nd` list is `[1, 1]` yields that exact member list, the duplicate at
both positions. -/
theorem c6_way_members_equal_nd_refs_witness :
    importOsmDom [] [OSMRec.node ⟨some 1, some "1.0", some "2.0", noAttrs, []⟩]
      = ([⟨1, .node (some (.feed "1.0")) (some (.feed "2.0")), Meta.empty, []⟩], none) ∧
    (⟨some 10, [1, 1], noAttrs, []⟩ : WayRec).id = some 10 ∧
    lookupStore [⟨1, .node (some (.feed "1.0")) (some (.feed "2.0")), Meta.empty, []⟩]
      Kind.way 10 = none ∧
    ndsResolve [⟨1, .node (some (.feed "1.0")) (some (.feed "2.0")), Meta.empty, []⟩]
      [1, 1] = true ∧
    ∃ s₂,
      importOsmDom []
          ([OSMRec.node ⟨some 1, some "1.0", some "2.0", noAttrs, []⟩]
            ++ [OSMRec.way ⟨some 10, [1, 1], noAttrs, []⟩])
        = (s₂, none) ∧
      (lookupStore s₂ Kind.way 10).map Element.payload = some (Payload.way [1, 1]) :=
  ⟨rfl, rfl, rfl, rfl,
   c6_way_members_equal_nd_refs
     [OSMRec.node ⟨some 1, some "1.0", some "2.0", noAttrs, []⟩]
     ⟨some 10, [1, 1], noAttrs, []⟩ 10
     [⟨1, .node (some (.feed "1.0")) (some (.feed "2.0")), Meta.empty, []⟩]
     rfl rfl rfl rfl⟩

/-- C10: a combinator whose children are all unsupported still yields a
combinator with an empty child list, not `none`; `none` is returned for
a combinator exactly when its operator is not in the `_ops` table. -/
theorem c10_all_unsupported_children_empty_combinator
    (o : PyOp) (sop : String) (cs : List Clause) (t : String)
    (hall : ∀ c ∈ cs, analyseClause c t = none)
    (hop : opsTable o = some sop) :
    analyseClause (.boolList o cs) t = some (.comb sop []) ∧
    analyseClause (.boolList o cs) t ≠ none ∧
    (∀ (o' : PyOp) (cs' : List Clause), opsTable o' = none →
        analyseClause (.boolList o' cs') t = none) := by
  have hempty : analyseClauses cs t = [] := by
    rw [analyseClauses_eq_filterMap]
    exact List.filterMap_eq_nil_iff.mpr (fun c hc => hall c hc)
  refine ⟨?_, ?_, ?_⟩
  · rw [analyseClause, hempty, hop]
  · rw [analyseClause, hempty, hop]
    simp
  · intro o' cs' hop'
    rw [analyseClause, hop']

/-- Witness for C10: an AND whose only child is an unsupported clause
type yields `("&&", [])`. -/
theorem c10_all_unsupported_children_empty_combinator_witness :
    (∀ c ∈ [Clause.otherClause "sub"], analyseClause c "OSMNode" = none) ∧
    (analyseClause (.boolList .opAnd [Clause.otherClause "sub"]) "OSMNode"
        = some (.comb "&&" []) ∧
     analyseClause (.boolList .opAnd [Clause.otherClause "sub"]) "OSMNode" ≠ none ∧
     (∀ (o' : PyOp) (cs' : List Clause), opsTable o' = none →
        analyseClause (.boolList o' cs') "OSMNode" = none)) :=
  ⟨fun c hc => by
      rw [List.mem_singleton] at hc
      rw [hc]
      rfl,
   c10_all_unsupported_children_empty_combinator .opAnd "&&" [Clause.otherClause "sub"]
     "OSMNode"
     (fun c hc => by
        rw [List.mem_singleton] at hc
        rw [hc]
        rfl)
     rfl⟩

/-- C1 counterexample: importing `c1doc` twice is not idempotent — way
10's member list is `[1]` after the first import but `[1, 1]` after the
second (the importer appends to `way.nodes` instead of replacing the
list). -/
theorem c1_reimport_doubles_way_members :
    (lookupStore (importOsmDom [] c1doc).1 Kind.way 10).map Element.payload
      = some (Payload.way [1]) ∧
    (lookupStore (importOsmDom (importOsmDom [] c1doc).1 c1doc).1 Kind.way 10).map
        Element.payload
      = some (Payload.way [1, 1]) ∧
    Payload.way [1, 1] ≠ Payload.way [1] :=
  ⟨rfl, rfl, by decide⟩

/-- C1 corrected: re-resolving an existing key updates in place and adds
no rows (element counts are unchanged), but the member list is appended
to, not replaced: re-importing a way record over node list `old` leaves
node list `old ++ nds`, and re-importing a relation record over member
list `oldm` leaves `oldm` extended with the record's member tuples. -/
theorem c1_amended_reimport_appends_member_lists
    (s t : Store) (w : WayRec) (i : Int) (e : Element) (old : List Int)
    (r : RelRec) (j : Int) (f : Element) (oldm : List (Kind × Int × String))
    (hwid : w.id = some i)
    (hwfound : lookupStore s Kind.way i = some e)
    (hwpay : e.payload = .way old)
    (hwres : ndsResolve s w.nds = true)
    (hrid : r.id = some j)
    (hrfound : lookupStore t Kind.relation j = some f)
    (hrpay : f.payload = .rel oldm)
    (hrmem : ∀ m ∈ r.members,
        ∃ ref, m.ref = some ref ∧ (lookupStore t m.type ref).isSome = true) :
    ((domToWay s w).2 = none ∧
     (domToWay s w).1.length = s.length ∧
     (lookupStore (domToWay s w).1 Kind.way i).map Element.payload
        = some (Payload.way (old ++ w.nds))) ∧
    ((domToRelation t r).2 = none ∧
     (domToRelation t r).1.length = t.length ∧
     (lookupStore (domToRelation t r).1 Kind.relation j).map Element.payload
        = some (Payload.rel
            (oldm ++ r.members.map (fun m => (m.type, m.ref.getD 0, m.role.getD ""))))) := by
  constructor
  · unfold domToWay
    rw [hwid]
    simp only [hwres, if_true, hwfound]
    refine ⟨trivial, length_updateStore .., ?_⟩
    rw [lookupStore_updateStore s Kind.way i _ ?_]
    · rw [hwfound]
      simp [hwpay]
    · intro e' he'
      simp only [keyMatch, Element.kind, decide_eq_true_eq] at he' ⊢
      refine ⟨?_, he'.2⟩
      rw [← he'.1]
      cases hp : e'.payload <;> simp [Payload.kind]
  · have hmems := processMembers_all_found t r.members hrmem
    unfold domToRelation
    rw [hrid]
    simp only [hmems, hrfound]
    refine ⟨trivial, length_updateStore .., ?_⟩
    rw [lookupStore_updateStore t Kind.relation j _ ?_]
    · rw [hrfound]
      simp [hrpay]
    · intro e' he'
      simp only [keyMatch, Element.kind, decide_eq_true_eq] at he' ⊢
      refine ⟨?_, he'.2⟩
      rw [← he'.1]
      cases hp : e'.payload <;> simp [Payload.kind]

/-- Witness for C1's amended claim: re-importing `c1doc`'s way and a
relation record over `c3store`. -/
theorem c1_amended_reimport_appends_member_lists_witness :
    ((⟨some 10, [1], noAttrs, []⟩ : WayRec).id = some 10 ∧
     lookupStore c1store Kind.way 10 = some ⟨10, .way [1], Meta.empty, []⟩ ∧
     ndsResolve c1store [1] = true ∧
     lookupStore c3store Kind.relation 5
       = some ⟨5, .rel [(Kind.node, 7, "r")], Meta.empty, []⟩) ∧
    (((domToWay c1store ⟨some 10, [1], noAttrs, []⟩).2 = none ∧
      (domToWay c1store ⟨some 10, [1], noAttrs, []⟩).1.length = c1store.length ∧
      (lookupStore (domToWay c1store ⟨some 10, [1], noAttrs, []⟩).1 Kind.way 10).map
          Element.payload
        = some (Payload.way ([1] ++ [1]))) ∧
     ((domToRelation c3store ⟨some 5, [⟨Kind.node, some 7, some "r"⟩], noAttrs, []⟩).2
        = none ∧
      (domToRelation c3store
          ⟨some 5, [⟨Kind.node, some 7, some "r"⟩], noAttrs, []⟩).1.length
        = c3store.length ∧
      (lookupStore
          (domToRelation c3store
            ⟨some 5, [⟨Kind.node, some 7, some "r"⟩], noAttrs, []⟩).1
          Kind.relation 5).map Element.payload
        = some (Payload.rel
            ([(Kind.node, 7, "r")]
              ++ ([⟨Kind.node, some 7, some "r"⟩] : List MemberRec).map
                  (fun m => (m.type, m.ref.getD 0, m.role.getD "")))))) :=
  ⟨⟨rfl, rfl, rfl, rfl⟩,
   c1_amended_reimport_appends_member_lists c1store c3store
     ⟨some 10, [1], noAttrs, []⟩ 10 ⟨10, .way [1], Meta.empty, []⟩ [1]
     ⟨some 5, [⟨Kind.node, some 7, some "r"⟩], noAttrs, []⟩ 5
     ⟨5, .rel [(Kind.node, 7, "r")], Meta.empty, []⟩ [(Kind.node, 7, "r")]
     rfl rfl rfl rfl rfl rfl rfl
     (fun m hm => by
        rw [List.mem_singleton] at hm
        subst hm
        exact ⟨7, rfl, rfl⟩)⟩

/-- C2 counterexample: importing `c2doc` (whose second node record lacks
the mandatory `lat`) raises, yet node 1 — committed for the record
processed before the failing one — remains visible in the store. -/
theorem c2_failed_batch_keeps_earlier_records :
    importOsmDom [] c2doc
      = ([⟨1, .node (some (.feed "1.0")) (some (.feed "2.0")), Meta.empty, []⟩],
         some ImportErr.keyError) ∧
    lookupStore (importOsmDom [] c2doc).1 Kind.node 1 ≠ none :=
  ⟨rfl, by decide⟩

/-- C2 corrected: on a record that raises, the error is surfaced and
processing stops there, the remaining records are not processed, the
failing node or way record itself commits nothing — but elements
committed for the records before the failing one remain visible
(each record is committed individually; the batch is not atomic). -/
theorem c2_amended_error_stops_import_keeps_earlier_commits
    (s s₁ s₂ : Store) (pre rest : Doc) (r : OSMRec) (err : ImportErr)
    (h1 : importOsmDom s pre = (s₁, none))
    (h2 : importRec s₁ r = (s₂, some err)) :
    importOsmDom s (pre ++ r :: rest) = (s₂, some err) ∧
    (∀ nr : NodeRec, r = OSMRec.node nr → s₂ = s₁) ∧
    (∀ wr : WayRec, r = OSMRec.way wr → s₂ = s₁) := by
  refine ⟨?_, ?_, ?_⟩
  · rw [importOsmDom_append s s₁ pre (r :: rest) h1]
    exact importOsmDom_cons_err s₁ s₂ r rest err h2
  · rintro nr rfl
    have h2' : domToNode s₁ nr = (s₂, some err) := h2
    have hkeep := domToNode_error s₁ nr err (by rw [h2'])
    rw [h2'] at hkeep
    exact hkeep
  · rintro wr rfl
    have h2' : domToWay s₁ wr = (s₂, some err) := h2
    have hkeep := domToWay_error s₁ wr err (by rw [h2'])
    rw [h2'] at hkeep
    exact hkeep

/-- Witness for C2's amended claim on `c2doc`. -/
theorem c2_amended_error_stops_import_keeps_earlier_commits_witness :
    (importOsmDom [] [OSMRec.node ⟨some 1, some "1.0", some "2.0", noAttrs, []⟩]
       = ([⟨1, .node (some (.feed "1.0")) (some (.feed "2.0")), Meta.empty, []⟩], none) ∧
     importRec [⟨1, .node (some (.feed "1.0")) (some (.feed "2.0")), Meta.empty, []⟩]
         (OSMRec.node ⟨some 2, none, some "3.0", noAttrs, []⟩)
       = ([⟨1, .node (some (.feed "1.0")) (some (.feed "2.0")), Meta.empty, []⟩],
          some ImportErr.keyError)) ∧
    (importOsmDom []
        ([OSMRec.node ⟨some 1, some "1.0", some "2.0", noAttrs, []⟩]
          ++ OSMRec.node ⟨some 2, none, some "3.0", noAttrs, []⟩ :: [])
      = ([⟨1, .node (some (.feed "1.0")) (some (.feed "2.0")), Meta.empty, []⟩],
         some ImportErr.keyError) ∧
     (∀ nr : NodeRec,
        OSMRec.node ⟨some 2, none, some "3.0", noAttrs, []⟩ = OSMRec.node nr →
        ([⟨1, .node (some (.feed "1.0")) (some (.feed "2.0")), Meta.empty, []⟩] : Store)
          = [⟨1, .node (some (.feed "1.0")) (some (.feed "2.0")), Meta.empty, []⟩]) ∧
     (∀ wr : WayRec,
        OSMRec.node ⟨some 2, none, some "3.0", noAttrs, []⟩ = OSMRec.way wr →
        ([⟨1, .node (some (.feed "1.0")) (some (.feed "2.0")), Meta.empty, []⟩] : Store)
          = [⟨1, .node (some (.feed "1.0")) (some (.feed "2.0")), Meta.empty, []⟩])) :=
  ⟨⟨rfl, rfl⟩,
   c2_amended_error_stops_import_keeps_earlier_commits
     [] [⟨1, .node (some (.feed "1.0")) (some (.feed "2.0")), Meta.empty, []⟩]
     [⟨1, .node (some (.feed "1.0")) (some (.feed "2.0")), Meta.empty, []⟩]
     [OSMRec.node ⟨some 1, some "1.0", some "2.0", noAttrs, []⟩] []
     (OSMRec.node ⟨some 2, none, some "3.0", noAttrs, []⟩) ImportErr.keyError
     rfl rfl⟩

/-- C3 counterexample: importing `c3doc` creates the stub for node 7,
but the stub's latitude and longitude are the constructor defaults `0.0`
(`OSMNode.__init__(latitude=0.0, longitude=0.0)`), not absent/null as
the claim states for all fields other than kind and external id. -/
theorem c3_node_stub_fields_not_null :
    (importOsmDom [] c3doc).2 = none ∧
    lookupStore (importOsmDom [] c3doc).1 Kind.node 7
      = some ⟨7, .node (some .zeroDefault) (some .zeroDefault), Meta.empty, []⟩ ∧
    some CoordVal.zeroDefault ≠ (none : Option CoordVal) :=
  ⟨rfl, rfl, by decide⟩

/-- C3 corrected: an unknown relation member `(kind, ref)` yields a stub
of that kind and external id, persisted immediately, whose metadata and
tags are absent — except that a node stub carries latitude and longitude
`0.0` from the constructor defaults rather than null; a later node
record for the same `(kind, external_id)` hydrates that same stored row
in place (the row count is unchanged and the row is overwritten by
key). -/
theorem c3_amended_stub_created_then_hydrated_in_place
    (s : Store) (i ref : Int) (k : Kind) (role : Option String) (a : MetaAttrs)
    (tg : List (String × String))
    (hk : lookupStore s k ref = none)
    (hrel : lookupStore s Kind.relation i = none)
    (hne : keyMatch (mkStub k ref) Kind.relation i = false)
    (t : Store) (e : Element) (nr : NodeRec) (la lo : String)
    (hfound : lookupStore t Kind.node ref = some e)
    (hid : nr.id = some ref) (hla : nr.lat = some la) (hlo : nr.lon = some lo) :
    domToRelation s ⟨some i, [⟨k, some ref, role⟩], a, tg⟩
      = (s ++ [mkStub k ref]
           ++ [⟨i, .rel [(k, ref, role.getD "")], domAttrsToAny a Meta.empty, tg⟩],
         none) ∧
    mkStub Kind.node ref
      = ⟨ref, .node (some .zeroDefault) (some .zeroDefault), Meta.empty, []⟩ ∧
    mkStub Kind.way ref = ⟨ref, .way [], Meta.empty, []⟩ ∧
    mkStub Kind.relation ref = ⟨ref, .rel [], Meta.empty, []⟩ ∧
    ((domToNode t nr).2 = none ∧
     (domToNode t nr).1.length = t.length ∧
     lookupStore (domToNode t nr).1 Kind.node ref
       = some { e with
                payload := .node (some (.feed la)) (some (.feed lo))
                meta := domAttrsToAny nr.attrs e.meta
                tags := nr.tags }) := by
  have hmem : processMembers s [⟨k, some ref, role⟩]
      = (s ++ [mkStub k ref], [(k, ref, role.getD "")], none) := by
    unfold processMembers
    simp [hk, processMembers]
  have hlook : lookupStore (s ++ [mkStub k ref]) Kind.relation i = none := by
    rw [lookupStore_append, hrel]
    simp [lookupStore, hne]
  refine ⟨?_, rfl, rfl, rfl, ?_⟩
  · unfold domToRelation
    simp only [hmem, hrel, hlook]
    simp
  · have hnodestep : domToNode t nr
        = (updateStore t Kind.node ref (fun e' =>
            { e' with
              payload := .node (some (.feed la)) (some (.feed lo))
              meta := domAttrsToAny nr.attrs e'.meta
              tags := nr.tags }), none) := by
      unfold domToNode
      rw [hid, hla, hlo]
      simp [hfound]
    rw [hnodestep]
    refine ⟨rfl, length_updateStore .., ?_⟩
    rw [lookupStore_updateStore t Kind.node ref _ ?_]
    · rw [hfound]
      rfl
    · intro e' he'
      simp only [keyMatch, Element.kind, decide_eq_true_eq] at he' ⊢
      exact ⟨rfl, he'.2⟩

/-- Witness for C3's amended claim: the stub for node 7 from `c3doc`'s
relation, then its hydration by a node record. -/
theorem c3_amended_stub_created_then_hydrated_in_place_witness :
    (lookupStore [] Kind.node 7 = none ∧
     lookupStore [] Kind.relation 5 = none ∧
     keyMatch (mkStub Kind.node 7) Kind.relation 5 = false ∧
     lookupStore c3store Kind.node 7
       = some ⟨7, .node (some .zeroDefault) (some .zeroDefault), Meta.empty, []⟩) ∧
    (domToRelation [] ⟨some 5, [⟨Kind.node, some 7, some "r"⟩], noAttrs, []⟩
      = ([] ++ [mkStub Kind.node 7]
           ++ [⟨5, .rel [(Kind.node, 7, (some "r").getD "")],
                domAttrsToAny noAttrs Meta.empty, []⟩],
         none) ∧
     mkStub Kind.node 7
       = ⟨7, .node (some .zeroDefault) (some .zeroDefault), Meta.empty, []⟩ ∧
     mkStub Kind.way 7 = ⟨7, .way [], Meta.empty, []⟩ ∧
     mkStub Kind.relation 7 = ⟨7, .rel [], Meta.empty, []⟩ ∧
     ((domToNode c3store ⟨some 7, some "9.9", some "8.8", noAttrs, []⟩).2 = none ∧
      (domToNode c3store ⟨some 7, some "9.9", some "8.8", noAttrs, []⟩).1.length
        = c3store.length ∧
      lookupStore (domToNode c3store ⟨some 7, some "9.9", some "8.8", noAttrs, []⟩).1
          Kind.node 7
        = some { (⟨7, .node (some .zeroDefault) (some .zeroDefault), Meta.empty, []⟩ :
                    Element) with
                 payload := .node (some (.feed "9.9")) (some (.feed "8.8"))
                 meta := domAttrsToAny noAttrs Meta.empty
                 tags := [] })) :=
  ⟨⟨rfl, rfl, rfl, rfl⟩,
   c3_amended_stub_created_then_hydrated_in_place
     [] 5 7 Kind.node (some "r") noAttrs [] rfl rfl rfl
     c3store ⟨7, .node (some .zeroDefault) (some .zeroDefault), Meta.empty, []⟩
     ⟨some 7, some "9.9", some "8.8", noAttrs, []⟩ "9.9" "8.8"
     rfl rfl rfl rfl⟩

end OSMAlchemy
